import Mathlib

/-!
Verification development for the structured extraction and CSV
normalization pipeline of scap.py (Advanced Multi-URL Web Scraper).

The Python source is shallowly embedded: pure text transformations become
Lean functions on List Char / String, the BeautifulSoup element tree is
modelled as explicit structures carrying the text content the code reads,
Python dicts become insertion-ordered association lists, and the one
fallible step (referencing the local variable first_row before assignment
inside the per-table loop of _extract_structured_tables) is modelled with
Except and an explicit binding state, matching the try/except per table.

Modelling conventions, noted once here:
- character classes follow the ASCII behaviour of Python's re module
  (inputs in all claims are ASCII);
- BeautifulSoup get_text() concatenates the text nodes of an element in
  document order; markup whitespace between structural tags is modelled as
  a single newline between successive text pieces;
- an element with no modelled children is falsy, matching bs4 tag
  truthiness via its len of contents.
-/

/-! ### Character classes (Python re module, ASCII range) -/

/-- Python whitespace class backslash-s over ASCII. -/
def isPySpace (c : Char) : Bool :=
  c = ' ' || c = '\t' || c = '\n' || c = '\r' || c = '\x0b' || c = '\x0c'

/-- The character class stripped by clean text: x00-x1f and x7f-x9f. -/
def isStrippedControl (c : Char) : Bool :=
  c.toNat ≤ 0x1f || (0x7f ≤ c.toNat && c.toNat ≤ 0x9f)

/-- Python word-character class backslash-w over ASCII: letters, digits, underscore. -/
def isWordChar (c : Char) : Bool :=
  c.isAlpha || c.isDigit || c = '_'

/-! ### StructuredDataParser._clean_text -/

/-- Python str.strip: drop leading and trailing whitespace. -/
def pyStrip (l : List Char) : List Char :=
  ((l.dropWhile isPySpace).reverse.dropWhile isPySpace).reverse

/-- re.sub of one-or-more whitespace with a single space; the flag records
whether the previous character was part of a whitespace run. -/
def collapseWsAux : Bool → List Char → List Char
  | _, [] => []
  | prevSpace, c :: rest =>
    if isPySpace c then
      if prevSpace then collapseWsAux true rest
      else ' ' :: collapseWsAux true rest
    else c :: collapseWsAux false rest

/-- re.sub removing citation markers: a literal open bracket, one or more
digits, a literal close bracket. Scans left to right, non-overlapping.
Every step consumes at least one character, so fuel equal to the input
length never runs out. -/
def removeCitationsGo : Nat → List Char → List Char
  | 0, l => l
  | _, [] => []
  | fuel + 1, c :: rest =>
    if c = '[' ∧ rest.takeWhile Char.isDigit ≠ [] ∧
        (rest.dropWhile Char.isDigit).head? = some ']' then
      removeCitationsGo fuel (rest.dropWhile Char.isDigit).tail
    else c :: removeCitationsGo fuel rest

def removeCitations (l : List Char) : List Char :=
  removeCitationsGo l.length l

/-- re.sub replacing whitespace-star, dot, whitespace-star by dot-space.
At each position the leftmost match starts where optional whitespace leads
to a literal dot; the match greedily absorbs surrounding whitespace. -/
def periodFixGo : Nat → List Char → List Char
  | 0, l => l
  | _, [] => []
  | fuel + 1, c :: rest =>
    if ((c :: rest).dropWhile isPySpace).head? = some '.' then
      '.' :: ' ' :: periodFixGo fuel (((c :: rest).dropWhile isPySpace).tail.dropWhile isPySpace)
    else c :: periodFixGo fuel rest

def periodFix (l : List Char) : List Char :=
  periodFixGo l.length l

/-- StructuredDataParser._clean_text: strip, collapse whitespace runs to
single spaces, drop control characters, drop bracketed numeric citation
markers, normalize spacing around periods, strip again. -/
def clean_text (s : String) : String :=
  if s = "" then ""
  else
    let l1 := collapseWsAux false (pyStrip s.data)
    let l2 := l1.filter (fun c => !isStrippedControl c)
    let l3 := removeCitations l2
    let l4 := periodFix l3
    String.mk (pyStrip l4)

/-! ### StructuredDataParser._is_valid_content -/

/-- Maximal runs of word characters of a string. -/
def wordRunsGo : Nat → List Char → List (List Char)
  | 0, _ => []
  | _, [] => []
  | fuel + 1, c :: rest =>
    if isWordChar c then
      (c :: rest.takeWhile isWordChar) :: wordRunsGo fuel (rest.dropWhile isWordChar)
    else wordRunsGo fuel rest

def wordRuns (l : List Char) : List (List Char) :=
  wordRunsGo l.length l

/-- Whether the findall of an alphabetic token of length at least two,
flanked by word boundaries, is non-empty: some maximal word-character run
consists solely of letters and has length at least two. -/
def hasAlphaWord (s : String) : Bool :=
  (wordRuns s.data).any (fun r => decide (2 ≤ r.length) && r.all Char.isAlpha)

/-- StructuredDataParser._is_valid_content: non-empty, at least minLength
characters, and at least one alphabetic token of length at least two. -/
def is_valid_content (minLength : Nat) (s : String) : Bool :=
  if s = "" || s.length < minLength then false else hasAlphaWord s

/-- The configured default minimum content length. -/
def min_content_length : Nat := 5

/-! ### Record values and Python dict model -/

/-- A value stored in an extraction record: the parser stores strings for
all fields except row_index, which is an integer. -/
inductive FieldVal where
  | str (s : String)
  | nat (n : Nat)
deriving DecidableEq, Repr

/-- A Python dict with string keys, as an insertion-ordered association
list with unique keys. -/
abbrev PyRec := List (String × FieldVal)

/-- Python dict lookup d.get(k): first (unique) binding of the key. -/
def dictGet? {α : Type} : List (String × α) → String → Option α
  | [], _ => none
  | kv :: rest, k => if kv.1 = k then some kv.2 else dictGet? rest k

/-- Python d.get(k, dflt). -/
def dictGetD {α : Type} (d : List (String × α)) (k : String) (dflt : α) : α :=
  (dictGet? d k).getD dflt

/-- Python dict assignment d[k] = v: overwrite in place if the key exists,
else append at the end (insertion order). -/
def pySet {α : Type} : List (String × α) → String → α → List (String × α)
  | [], k, v => [(k, v)]
  | kv :: rest, k, v => if kv.1 = k then (k, v) :: rest else kv :: pySet rest k v

/-- Python truthiness of a record value: non-empty string, non-zero int. -/
def fieldTruthy : FieldVal → Bool
  | .str s => s ≠ ""
  | .nat n => n ≠ 0

/-! ### HTML tree model -/

/-- A th or td cell: its tag name and the text content get_text returns. -/
structure HtmlCell where
  tag : String
  text : String
deriving DecidableEq, Repr

/-- A tr element, as its list of th/td cells. -/
abbrev HtmlRow := List HtmlCell

/-- A child of a table element, in document order: a thead region, a tbody
region, or a directly contained tr. -/
inductive RowGroup where
  | thead (rows : List HtmlRow)
  | tbody (rows : List HtmlRow)
  | tr (cells : HtmlRow)
deriving DecidableEq, Repr

/-- A table element: optional caption text and its children. -/
structure HtmlTable where
  caption : Option String
  groups : List RowGroup
deriving DecidableEq, Repr

def RowGroup.rows : RowGroup → List HtmlRow
  | .thead rs => rs
  | .tbody rs => rs
  | .tr cs => [cs]

/-- table.find_all of tr: every tr descendant in document order. -/
def allTrs (t : HtmlTable) : List HtmlRow :=
  (t.groups.map RowGroup.rows).flatten

/-- table.find of thead: the first thead child, with its rows. -/
def findThead (t : HtmlTable) : Option (List HtmlRow) :=
  t.groups.findSome? fun g =>
    match g with
    | .thead rs => some rs
    | _ => none

/-- table.find of tbody: the first tbody child, with its rows. -/
def findTbody (t : HtmlTable) : Option (List HtmlRow) :=
  t.groups.findSome? fun g =>
    match g with
    | .tbody rs => some rs
    | _ => none

/-- table.find of tr: the first tr in document order, None if absent. -/
def firstTr (t : HtmlTable) : Option HtmlRow :=
  (allTrs t).head?

/-- The rows iterated as data rows: the first tbody if one exists,
otherwise every tr of the table. -/
def dataRows (t : HtmlTable) : List HtmlRow :=
  match findTbody t with
  | some rs => rs
  | none => allTrs t

/-- Cell count of the widest tr, 0 when the table has no tr. -/
def maxCols (t : HtmlTable) : Nat :=
  ((allTrs t).map List.length).foldl Nat.max 0

/-! ### StructuredDataParser._extract_structured_tables -/

/-- The metadata keys a table record starts from; cell data is every other
key. -/
def tableMetaKeys : List String :=
  ["data_type", "source_url", "table_context", "row_index", "domain"]

/-- One table_data record for one data row: the base fields, then one field
per cell whose cleaned text passes the validity check, keyed by the
resolved header name, with the lowercase positional fallback when the
header entry is empty or the cell index exceeds the header count. -/
def buildTableRecord (url domain tableContext : String) (headers : List String)
    (rowIdx : Nat) (cells : HtmlRow) : PyRec :=
  let base : PyRec :=
    [("data_type", .str "table_data"), ("source_url", .str url),
     ("table_context", .str tableContext), ("row_index", .nat rowIdx),
     ("domain", .str domain)]
  cells.enum.foldl
    (fun r ic =>
      let hdr := headers.getD ic.1 ""
      let colName := if hdr ≠ "" then hdr else "column_" ++ toString (ic.1 + 1)
      let cellText := clean_text ic.2.text
      if is_valid_content min_content_length cellText then pySet r colName (.str cellText)
      else r)
    base

/-- Whether a built record keeps any data field: some binding outside the
metadata keys with a truthy value. -/
def keepsRecord (r : PyRec) : Bool :=
  r.any fun kv => !tableMetaKeys.contains kv.1 && fieldTruthy kv.2

/-- The binding state of the local variable first_row across the per-table
loop: none models the name being unbound, some models an assignment (to a
row, or to Python None when the table has no tr). -/
abbrev FirstRowState := Option (Option HtmlRow)

/-- The per-row loop over the data rows. Comparing the row against the
never-assigned first_row raises, modelled by Except.error; the loop body
otherwise skips the row equal to first_row, skips cell-less rows, and
keeps records with at least one data field. -/
def processRows (url domain tableContext : String) (headers : List String)
    (fr : FirstRowState) : Nat → List HtmlRow → Except Unit (List PyRec)
  | _, [] => .ok []
  | rowIdx, row :: rest =>
    match fr with
    | none => .error ()
    | some frv =>
      let skip : Bool := match frv with
        | some r0 => decide (row = r0)
        | none => false
      if skip then processRows url domain tableContext headers fr (rowIdx + 1) rest
      else if row = [] then processRows url domain tableContext headers fr (rowIdx + 1) rest
      else
        let record := buildTableRecord url domain tableContext headers rowIdx row
        (processRows url domain tableContext headers fr (rowIdx + 1) rest).map
          fun rs => if keepsRecord record then record :: rs else rs

/-- Processing of one table inside the try block: resolve the context
label, resolve the headers with the thead / first-row / synthesized
precedence, and run the data-row loop. Returns the updated first_row
binding state together with the records, or an error when the loop
raised. -/
def process_table (url domain : String) (fr0 : FirstRowState) (tableIdx : Nat)
    (t : HtmlTable) : Except Unit (FirstRowState × List PyRec) :=
  let tableContext := match t.caption with
    | some c => if c ≠ "" then clean_text c else "Table_" ++ toString (tableIdx + 1)
    | none => "Table_" ++ toString (tableIdx + 1)
  let theadHeaders := match findThead t with
    | some rs => if rs ≠ [] then (rs.flatten.map fun c => clean_text c.text) else []
    | none => []
  let frAndHeaders : FirstRowState × List String :=
    if theadHeaders ≠ [] then (fr0, theadHeaders)
    else
      let fr1 := firstTr t
      let hs := match fr1 with
        | some r => r.map fun c => clean_text c.text
        | none => []
      (some fr1, hs)
  let headers := if frAndHeaders.2 ≠ [] then frAndHeaders.2
    else (List.range (maxCols t)).map fun i => "Column_" ++ toString (i + 1)
  (processRows url domain tableContext headers frAndHeaders.1 0 (dataRows t)).map
    fun recs => (frAndHeaders.1, recs)

/-- The logged warning for a table whose processing raised. -/
def table_warning (tableIdx : Nat) : String :=
  "Error parsing table " ++ toString tableIdx

/-- The loop over all tables: a raising table is skipped with a warning and
extraction continues; the first_row binding state persists across
iterations because it is a local of the enclosing function. -/
def extract_tables_go (url domain : String) :
    FirstRowState → Nat → List HtmlTable → List PyRec × List String
  | _, _, [] => ([], [])
  | fr, idx, t :: ts =>
    match process_table url domain fr idx t with
    | .ok (fr2, recs) =>
      let rest := extract_tables_go url domain fr2 (idx + 1) ts
      (recs ++ rest.1, rest.2)
    | .error _ =>
      let rest := extract_tables_go url domain fr (idx + 1) ts
      (rest.1, table_warning idx :: rest.2)

/-- StructuredDataParser._extract_structured_tables: records and warnings
over the document's tables. -/
def extract_structured_tables (url domain : String) (tables : List HtmlTable) :
    List PyRec × List String :=
  extract_tables_go url domain none 0 tables

/-! ### Version patterns (_extract_version_information)

The five patterns of the fixed ordered list, each as a deterministic
matcher at one position; findall scans left to right, non-overlapping,
resuming after each match, exactly as re.findall does for these patterns
(each has at most bounded backtracking, resolved below case by case). -/

/-- A word boundary holds before the current position: start of string or
a preceding non-word character (every pattern starts with a word
character). -/
def boundaryOk : Option Char → Bool
  | none => true
  | some c => !isWordChar c

/-- A word boundary holds after a word character at the current position:
end of string or a following non-word character. -/
def endBoundary : List Char → Bool
  | [] => true
  | c :: _ => !isWordChar c

/-- Greedy one-or-more digits. -/
def takeDigits1 (s : List Char) : Option (List Char × List Char) :=
  let ds := s.takeWhile Char.isDigit
  if ds = [] then none else some (ds, s.dropWhile Char.isDigit)

/-- Exactly n characters satisfying p. -/
def takeExact (n : Nat) (p : Char → Bool) (s : List Char) :
    Option (List Char × List Char) :=
  let t := s.take n
  if t.length = n && t.all p then some (t, s.drop n) else none

/-- Pattern: boundary, digits, dot, digits, dot, digits, boundary. -/
def matchSemver3 (prev : Option Char) (s : List Char) :
    Option (List Char × List Char) :=
  if !boundaryOk prev then none else
  match takeDigits1 s with
  | none => none
  | some (d1, r1) =>
    match r1 with
    | '.' :: r2 =>
      match takeDigits1 r2 with
      | none => none
      | some (d2, r3) =>
        match r3 with
        | '.' :: r4 =>
          match takeDigits1 r4 with
          | none => none
          | some (d3, r5) =>
            if endBoundary r5 then some (d1 ++ '.' :: d2 ++ '.' :: d3, r5) else none
        | _ => none
    | _ => none

/-- Pattern: boundary, digits, dot, digits, boundary. -/
def matchDotted2 (prev : Option Char) (s : List Char) :
    Option (List Char × List Char) :=
  if !boundaryOk prev then none else
  match takeDigits1 s with
  | none => none
  | some (d1, r1) =>
    match r1 with
    | '.' :: r2 =>
      match takeDigits1 r2 with
      | none => none
      | some (d2, r3) =>
        if endBoundary r3 then some (d1 ++ '.' :: d2, r3) else none
    | _ => none

/-- Pattern: boundary, optional v, semantic-version triple, optional
single letter, boundary. The optional letter is taken greedily; when the
character after it is still a word character both alternatives fail, since
without the letter the boundary falls between a digit and a letter. -/
def matchPrefixedSemver (prev : Option Char) (s : List Char) :
    Option (List Char × List Char) :=
  if !boundaryOk prev then none else
  let vs := match s with
    | 'v' :: rest => (['v'], rest)
    | _ => (([] : List Char), s)
  match takeDigits1 vs.2 with
  | none => none
  | some (d1, r1) =>
    match r1 with
    | '.' :: r2 =>
      match takeDigits1 r2 with
      | none => none
      | some (d2, r3) =>
        match r3 with
        | '.' :: r4 =>
          match takeDigits1 r4 with
          | none => none
          | some (d3, r5) =>
            let core := vs.1 ++ d1 ++ '.' :: d2 ++ '.' :: d3
            match r5 with
            | [] => some (core, [])
            | c :: r6 =>
              if c.isAlpha then
                if endBoundary r6 then some (core ++ [c], r6) else none
              else if isWordChar c then none
              else some (core, r5)
        | _ => none
    | _ => none

/-- Pattern: boundary, four digits, dash, two digits, dash, two digits,
boundary. The counted repetitions are exact, with no backtracking. -/
def matchIsoDate (prev : Option Char) (s : List Char) :
    Option (List Char × List Char) :=
  if !boundaryOk prev then none else
  match takeExact 4 Char.isDigit s with
  | none => none
  | some (d1, r1) =>
    match r1 with
    | '-' :: r2 =>
      match takeExact 2 Char.isDigit r2 with
      | none => none
      | some (d2, r3) =>
        match r3 with
        | '-' :: r4 =>
          match takeExact 2 Char.isDigit r4 with
          | none => none
          | some (d3, r5) =>
            if endBoundary r5 then some (d1 ++ '-' :: d2 ++ '-' :: d3, r5) else none
        | _ => none
    | _ => none

/-- The twelve month-name alternatives, in pattern order. -/
def monthNames : List String :=
  ["January", "February", "March", "April", "May", "June", "July",
   "August", "September", "October", "November", "December"]

/-- Pattern: boundary, a month name, whitespace, four digits, boundary.
No month name is a prefix of another, so first-prefix selection matches
the alternation. -/
def matchMonthYear (prev : Option Char) (s : List Char) :
    Option (List Char × List Char) :=
  if !boundaryOk prev then none else
  match monthNames.findSome? (fun m =>
      if m.data.isPrefixOf s then some m.data else none) with
  | none => none
  | some m =>
    let r1 := s.drop m.length
    let sp := r1.takeWhile isPySpace
    if sp = [] then none else
    let r2 := r1.dropWhile isPySpace
    match takeExact 4 Char.isDigit r2 with
    | none => none
    | some (y, r3) =>
      if endBoundary r3 then some (m ++ sp ++ y, r3) else none

/-- The fixed ordered list of version patterns. -/
inductive VersionPattern where
  | semver3
  | dotted2
  | prefixedSemver
  | isoDate
  | monthYear
deriving DecidableEq, Repr

def version_patterns : List VersionPattern :=
  [.semver3, .dotted2, .prefixedSemver, .isoDate, .monthYear]

def matcherFor : VersionPattern → Option Char → List Char → Option (List Char × List Char)
  | .semver3 => matchSemver3
  | .dotted2 => matchDotted2
  | .prefixedSemver => matchPrefixedSemver
  | .isoDate => matchIsoDate
  | .monthYear => matchMonthYear

/-- The findall scan: try a match at each position, resume after each
match, tracking the previous character for boundary tests. Fuel bounds the
scan by the input length; every match consumes at least one character. -/
def scanFindall
    (matchAt : Option Char → List Char → Option (List Char × List Char)) :
    Nat → Option Char → List Char → List String
  | 0, _, _ => []
  | _ + 1, _, [] => []
  | fuel + 1, prev, c :: rest =>
    match matchAt prev (c :: rest) with
    | some (m, rest2) => String.mk m :: scanFindall matchAt fuel m.getLast? rest2
    | none => scanFindall matchAt fuel (some c) rest

/-- re.findall of one version pattern over a string. -/
def re_findall (p : VersionPattern) (s : String) : List String :=
  scanFindall (matcherFor p) (s.data.length + 1) none s.data

/-! ### StructuredDataParser._extract_version_information -/

/-- The derived context label: table or list ordinal, truncated heading
text, or paragraph ordinal. -/
def context_label (elemType : String) (elemIdx : Nat) (text : String) : String :=
  if elemType = "table" then "Table_" ++ toString (elemIdx + 1)
  else if elemType = "list" then "List_" ++ toString (elemIdx + 1)
  else if elemType = "heading" then "Heading: " ++ text.take 50 ++ "..."
  else "Paragraph_" ++ toString (elemIdx + 1)

/-- The truncated snippet stored as full_text. -/
def truncate_full_text (text : String) : String :=
  if 200 < text.length then text.take 200 ++ "..." else text

/-- The version_reference records one element contributes for one pattern:
none when findall is empty, else one record per token among the first
three matches. -/
def versionRecordsForPattern (url domain elemType : String) (elemIdx : Nat)
    (text : String) (p : VersionPattern) : List PyRec :=
  let versions := re_findall p text
  if versions = [] then []
  else
    let context := context_label elemType elemIdx text
    (versions.take 3).map fun v =>
      [("data_type", .str "version_info"), ("source_url", .str url),
       ("domain", .str domain), ("version_number", .str v),
       ("context", .str context), ("element_type", .str elemType),
       ("full_text", .str (truncate_full_text text))]

/-- All version_reference records of one element: clean the text, apply
the stricter minimum length of 20, then the per-pattern contributions in
pattern order. -/
def version_records_for_element (url domain elemType : String) (elemIdx : Nat)
    (raw : String) : List PyRec :=
  let text := clean_text raw
  if !is_valid_content 20 text then []
  else (version_patterns.map
    (versionRecordsForPattern url domain elemType elemIdx text)).flatten

/-! ### Document model and whole-document version extraction -/

/-- A ul or ol element: its ordering kind and the text of its items. -/
structure HtmlList where
  kind : String
  items : List String
deriving DecidableEq, Repr

/-- A heading element h1..h6. -/
structure HtmlHeading where
  level : String
  text : String
deriving DecidableEq, Repr

/-- The parsed markup tree, by the element categories the extractor
scans. -/
structure HtmlDoc where
  tables : List HtmlTable
  lists : List HtmlList
  headings : List HtmlHeading
  paragraphs : List String
deriving DecidableEq, Repr

/-- get_text of a table: caption text and every cell text in document
order, with markup whitespace as newlines. -/
def table_get_text (t : HtmlTable) : String :=
  String.intercalate "\n"
    ((match t.caption with | some c => [c] | none => []) ++
      ((allTrs t).flatten.map HtmlCell.text))

/-- get_text of a list element. -/
def list_get_text (l : HtmlList) : String :=
  String.intercalate "\n" l.items

/-- The four scanned element categories, in scan order. -/
def elements_to_check (doc : HtmlDoc) : List (String × List String) :=
  [("table", doc.tables.map table_get_text),
   ("list", doc.lists.map list_get_text),
   ("heading", doc.headings.map HtmlHeading.text),
   ("paragraph", doc.paragraphs)]

/-- StructuredDataParser._extract_version_information over a document. -/
def extract_version_information (url domain : String) (doc : HtmlDoc) :
    List PyRec :=
  ((elements_to_check doc).map fun et =>
    (et.2.enum.map fun ie =>
      version_records_for_element url domain et.1 ie.1 ie.2).flatten).flatten

/-! ### Record stamping (parse_structured_data, lines 411-416) -/

/-- The record_id format string: the url hash modulo 10000 zero-padded to
four digits, an underscore, and the length of the completed record list.
The hash value is process-specific in Python (salted string hashing), so
it is an abstract integer parameter here. -/
def record_id_string (h : Int) (total : Nat) : String :=
  let m := (h % 10000).toNat
  let s := toString m
  String.mk (List.replicate (4 - s.length) '0') ++ s ++ "_" ++ toString total

/-- The stamping loop over all_data: every record receives the shared run
timestamp and a record_id built from the hash and the total record count
of the run. -/
def stamp_records (h : Int) (timestamp : String) (all_data : List PyRec) : List PyRec :=
  all_data.map fun r =>
    pySet (pySet r "extraction_timestamp" (.str timestamp))
      "record_id" (.str (record_id_string h all_data.length))

/-! ### FormattedCSVExporter._organize_data -/

/-- The five base columns, identical to the exporter's base column list. -/
def base_keys : List String :=
  ["record_id", "data_type", "source_url", "domain", "extraction_timestamp"]

/-- A value of an organized row: a string, an integer, or the str() of a
sub-dict (the serialized mapping is retained as the mapping it denotes). -/
inductive UVal where
  | str (s : String)
  | nat (n : Nat)
  | blob (d : List (String × FieldVal))
deriving DecidableEq, Repr

/-- An organized (unified) row, as an insertion-ordered dict. -/
abbrev URow := List (String × UVal)

def uOf : FieldVal → UVal
  | .str s => .str s
  | .nat n => .nat n

/-- The positional column slot: record.get(record.get(name, name), ''), a
double lookup using the value found under the positional name as the key
of the second lookup. An integer inner value would be looked up as a dict
key and miss (string keys only). -/
def column_slot (r : PyRec) (name : String) : UVal :=
  match dictGetD r name (.str name) with
  | .str s => uOf (dictGetD r s (.str ""))
  | .nat _ => .str ""

/-- The sub-dict serialized into additional_data: every binding whose key
is neither among the five standardized base keys nor table_context nor
row_index. -/
def table_additional (r : PyRec) : List (String × FieldVal) :=
  r.filter fun kv =>
    !base_keys.contains kv.1 && !(kv.1 = "table_context") && !(kv.1 = "row_index")

/-- Python slicing of the full_text value to 100 characters. In the
pipeline full_text is always a string; slicing an integer would raise and
is left as the identity on the integer case, which is unreachable. -/
def fv_take_100 : FieldVal → FieldVal
  | .str s => .str (s.take 100)
  | .nat n => .nat n

/-- FormattedCSVExporter._organize_data for one record: the five base
columns, then the per-type projection chosen by the record's data_type
(defaulting to the catch-all content blob for unknown types). -/
def organize_record (r : PyRec) : URow :=
  let standardized : URow :=
    [("record_id", uOf (dictGetD r "record_id" (.str ""))),
     ("data_type", uOf (dictGetD r "data_type" (.str "unknown"))),
     ("source_url", uOf (dictGetD r "source_url" (.str ""))),
     ("domain", uOf (dictGetD r "domain" (.str ""))),
     ("extraction_timestamp", uOf (dictGetD r "extraction_timestamp" (.str "")))]
  let dt := dictGetD r "data_type" (.str "")
  if dt = .str "table_data" then
    standardized ++
      [("table_context", uOf (dictGetD r "table_context" (.str ""))),
       ("row_index", uOf (dictGetD r "row_index" (.str ""))),
       ("column_1", column_slot r "column_1"),
       ("column_2", column_slot r "column_2"),
       ("column_3", column_slot r "column_3"),
       ("column_4", column_slot r "column_4"),
       ("additional_data", UVal.blob (table_additional r))]
  else if dt = .str "version_info" then
    standardized ++
      [("version_number", uOf (dictGetD r "version_number" (.str ""))),
       ("context", uOf (dictGetD r "context" (.str ""))),
       ("element_type", uOf (dictGetD r "element_type" (.str ""))),
       ("full_text", uOf (fv_take_100 (dictGetD r "full_text" (.str ""))))]
  else if dt = .str "list_item" then
    standardized ++
      [("list_context", uOf (dictGetD r "list_context" (.str ""))),
       ("item_index", uOf (dictGetD r "item_index" (.str ""))),
       ("content", uOf (dictGetD r "content" (.str ""))),
       ("list_type", uOf (dictGetD r "list_type" (.str ""))),
       ("total_items", uOf (dictGetD r "total_items" (.str "")))]
  else if dt = .str "section_content" then
    standardized ++
      [("heading", uOf (dictGetD r "heading" (.str ""))),
       ("heading_level", uOf (dictGetD r "heading_level" (.str ""))),
       ("content", uOf (dictGetD r "content" (.str ""))),
       ("content_pieces", uOf (dictGetD r "content_pieces" (.str "")))]
  else
    let content_fields := r.filter fun kv =>
      !base_keys.contains kv.1 && !(kv.1 = "data_type")
    standardized ++
      [("content", if content_fields = [] then UVal.str "" else UVal.blob content_fields)]

/-! ### FormattedCSVExporter.export_formatted_csv -/

/-- The per-type projection columns of the export schema. -/
def type_specific_columns : List (String × List String) :=
  [("table_data",
    ["table_context", "row_index", "column_1", "column_2", "column_3",
     "column_4", "additional_data"]),
   ("version_info", ["version_number", "context", "element_type", "full_text"]),
   ("list_item",
    ["list_context", "item_index", "content", "list_type", "total_items"]),
   ("section_content", ["heading", "heading_level", "content", "content_pieces"])]

/-- Lexicographic code-point comparison of strings, as Python compares
them when sorting. -/
def strLt (a b : String) : Bool :=
  let rec go : List Char → List Char → Bool
    | [], [] => false
    | [], _ :: _ => true
    | _ :: _, [] => false
    | x :: xs, y :: ys =>
      if x.toNat < y.toNat then true
      else if y.toNat < x.toNat then false
      else go xs ys
  go a.data b.data

/-- Insertion into a lexicographically sorted list. -/
def insertSorted (x : String) : List String → List String
  | [] => [x]
  | y :: ys => if strLt y x then y :: insertSorted x ys else x :: y :: ys

/-- Python sorted over a set of strings: sorting of the deduplicated
elements. -/
def sortStrings (l : List String) : List String :=
  l.dedup.foldr insertSorted []

/-- The exported column list: sorted union of the base columns with every
per-type projection column. -/
def all_columns : List String :=
  sortStrings (base_keys ++ (type_specific_columns.map Prod.snd).flatten)

/-- The outcome of one export call: the written file as a header row and
data rows, or no file at all, plus the warnings logged. -/
structure ExportResult where
  file : Option (List String × List (List UVal))
  warnings : List String
deriving DecidableEq, Repr

/-- FormattedCSVExporter.export_formatted_csv over the organized rows:
empty data logs a warning and writes nothing; otherwise the header is the
sorted column list and every record is projected onto every column, with
an explicit empty string where a field is absent. -/
def export_formatted_csv (organized : List URow) : ExportResult :=
  if organized = [] then { file := none, warnings := ["No data to export"] }
  else
    { file := some (all_columns,
        organized.map fun r => all_columns.map fun c => dictGetD r c (UVal.str "")),
      warnings := [] }

/-- The exporter as constructed and invoked: organize in the constructor,
then export. -/
def export_run (data : List PyRec) : ExportResult :=
  export_formatted_csv (data.map organize_record)

/-! ### StructuredDataParser construction and the per-URL report -/

/-- StructuredDataParser.__init__ raises ValueError exactly when the given
content is absent (None) or empty. -/
def structured_data_parser_check (html : Option String) : Except String Unit :=
  match html with
  | none => .error "HTML content cannot be empty."
  | some s => if s = "" then .error "HTML content cannot be empty." else .ok ()

/-- The per-URL entry of run_scraping's url_reports. -/
structure UrlReport where
  url : String
  records_extracted : Nat
  status : String
deriving DecidableEq, Repr

/-- The report row built for one processed URL from the records scrape_url
returned: status is success exactly when the record list is truthy. -/
def make_url_report (url : String) (data : List PyRec) : UrlReport :=
  { url := url, records_extracted := data.length,
    status := if data.isEmpty then "failed" else "success" }

/-! ### Concrete documents and records used by the claim theorems -/

/-- The tabular container of the spec's worked example: first row holds
the header cells Name and Version, one data row holds Widget and 1.2.3. -/
def c1Table : HtmlTable :=
  { caption := none,
    groups := [RowGroup.tr [⟨"th", "Name"⟩, ⟨"th", "Version"⟩],
               RowGroup.tr [⟨"td", "Widget"⟩, ⟨"td", "1.2.3"⟩]] }

/-- A document containing exactly that tabular container. -/
def c1Doc : HtmlDoc :=
  { tables := [c1Table], lists := [], headings := [], paragraphs := [] }

/-- The single table_data record the extractor actually produces for
c1Doc. -/
def c1Record : PyRec :=
  [("data_type", .str "table_data"), ("source_url", .str "u"),
   ("table_context", .str "Table_1"), ("row_index", .nat 1),
   ("domain", .str "d"), ("Name", .str "Widget")]

/-- A well-formed table with an explicit thead header region and one tbody
data row of valid cells. -/
def c2TheadTable : HtmlTable :=
  { caption := none,
    groups := [RowGroup.thead [[⟨"th", "Product Name"⟩, ⟨"th", "Version Info"⟩]],
               RowGroup.tbody [[⟨"td", "Widget Alpha"⟩, ⟨"td", "Stable Release"⟩]]] }

/-- A paragraph whose cleaned text contains three ISO dates and one
month-year phrase. -/
def c3Paragraph : String :=
  "Release dates 2024-01-02 2024-02-03 2024-03-04 March 2024"

/-- A document containing exactly that paragraph. -/
def c3Doc : HtmlDoc :=
  { tables := [], lists := [], headings := [], paragraphs := [c3Paragraph] }

/-- A table_data record with five valid cell fields, all keyed by
header-derived names. -/
def c4Rec : PyRec :=
  [("data_type", .str "table_data"), ("source_url", .str "u"),
   ("table_context", .str "T"), ("row_index", .nat 0), ("domain", .str "d"),
   ("Alpha", .str "first"), ("Bravo", .str "second"), ("Charlie", .str "third"),
   ("Delta", .str "fourth"), ("Echo", .str "fifth")]

/-- Two distinct records of one extraction run. -/
def c5Data : List PyRec :=
  [[("kind", .str "first")], [("kind", .str "second")]]

/-- Two record lists over different documents with different record types
present. -/
def c6d1 : List PyRec :=
  [[("data_type", .str "version_info"), ("version_number", .str "2024-01-02")]]

def c6d2 : List PyRec :=
  [[("data_type", .str "list_item"), ("content", .str "hello world")],
   [("data_type", .str "mystery"), ("note", .str "something")]]

/-- A table_data record whose cell keys are header-derived names, none of
them a positional column name. -/
def c9Rec : PyRec :=
  [("data_type", .str "table_data"), ("source_url", .str "u"),
   ("table_context", .str "T"), ("row_index", .nat 3), ("domain", .str "d"),
   ("Name", .str "Widget"), ("Owner", .str "Alice")]

/-! ### Shared helper lemmas -/

/-- Looking up a key immediately after a dict assignment of that key
yields the assigned value. -/
theorem dictGet?_pySet_same {α : Type} (d : List (String × α)) (k : String) (v : α) :
    dictGet? (pySet d k v) k = some v := by
  induction d with
  | nil => simp [pySet, dictGet?]
  | cons kv rest ih =>
    by_cases h : kv.1 = k
    · simp [pySet, h, dictGet?]
    · simp [pySet, h, dictGet?, ih]

/-! ### Claim theorems -/

/-- Claim C1, counterexample: on the document of the worked example, the
extractor produces zero version_reference records (the claim demands
exactly one), and no table_row record carries a Version field holding the
version string (the claim demands type_fields mapping Version to
1.2.3). -/
theorem c1_counterexample :
    extract_version_information "u" "d" c1Doc = [] ∧
    ¬ ∃ r ∈ (extract_structured_tables "u" "d" c1Doc.tables).1,
        dictGet? r "Version" = some (FieldVal.str "1.2.3") ∨
        dictGet? r "Version" = some (FieldVal.str "1. 2. 3") := by
  decide

/-- Claim C1, amended: for the document of the worked example, extraction
produces exactly one table_row record, whose cell fields consist of the
single mapping from Name to Widget (the 1.2.3 cell fails content validity
after cleaning rewrites it to a spaced form, so the Version field is
absent), and zero version_reference records (no version pattern matches
the cleaned text). -/
theorem c1_extraction_behaviour :
    (extract_structured_tables "u" "d" c1Doc.tables).1 = [c1Record] ∧
    (extract_structured_tables "u" "d" c1Doc.tables).2 = [] ∧
    dictGet? c1Record "Name" = some (FieldVal.str "Widget") ∧
    dictGet? c1Record "Version" = none ∧
    clean_text "1.2.3" = "1. 2. 3" ∧
    is_valid_content min_content_length "1. 2. 3" = false ∧
    extract_version_information "u" "d" c1Doc = [] := by
  decide

/-- Claim C2: evaluation at the failing input. A document whose first
tabular container carries an explicit thead header region and a valid
tbody data row yields zero table_row records and one warning: the data-row
loop references the never-assigned first_row local, the per-table handler
catches the error, and the whole container is skipped, instead of keying
the row by the thead-derived header names as the claim states. -/
theorem c2_thead_table_skipped :
    extract_structured_tables "u" "d" [c2TheadTable] = ([], [table_warning 0]) ∧
    process_table "u" "d" none 0 c2TheadTable = Except.error () := by
  exact ⟨rfl, rfl⟩

/-- Claim C5, counterexample: stamping a two-record run gives both records
(at positions 0 and 1 of the output sequence, and distinct from one
another) the identical record_id, built from the total record count, so
their ordinal components are equal, contradicting the claim that records
at different positions carry different ordinal components. -/
theorem c5_counterexample :
    (stamp_records 1234 "t" c5Data).getD 0 [] ≠ (stamp_records 1234 "t" c5Data).getD 1 [] ∧
    dictGet? ((stamp_records 1234 "t" c5Data).getD 0 []) "record_id" =
      dictGet? ((stamp_records 1234 "t" c5Data).getD 1 []) "record_id" ∧
    dictGet? ((stamp_records 1234 "t" c5Data).getD 0 []) "record_id" =
      some (FieldVal.str "1234_2") := by
  decide

/-- Claim C5, amended: every record of a run is stamped with the identical
record_id, the url hash modulo 10000 zero-padded to four digits followed
by an underscore and the total record count of the run; the ordinal
component does not vary per record. -/
theorem c5_shared_record_id (h : Int) (ts : String) (data : List PyRec) :
    ∀ r ∈ stamp_records h ts data,
      dictGet? r "record_id" = some (FieldVal.str (record_id_string h data.length)) := by
  intro r hr
  simp only [stamp_records, List.mem_map] at hr
  obtain ⟨r0, hr0, rfl⟩ := hr
  exact dictGet?_pySet_same ..

/-- Claim C5 witness: the amended statement applied to the concrete
two-record run. -/
theorem c5_shared_record_id_witness :
    dictGet? ((stamp_records 1234 "t" c5Data).getD 0 []) "record_id" =
      some (FieldVal.str (record_id_string 1234 c5Data.length)) := by
  exact c5_shared_record_id 1234 "t" c5Data _ (by decide)

/-- Claim C8: exporting an empty record sequence writes no file and logs
the warning, and a file is written exactly when the record sequence is
non-empty. -/
theorem c8_empty_export_noop :
    export_run [] = { file := none, warnings := ["No data to export"] } ∧
    ∀ data : List PyRec, (export_run data).file = none ↔ data = [] := by
  constructor
  · rfl
  · intro data
    cases data with
    | nil => simp [export_run, export_formatted_csv]
    | cons a l => simp [export_run, export_formatted_csv]

/-- Claim C10: the per-source report row has status success exactly when
at least one record was extracted from that URL, and status failed exactly
when zero records were extracted, regardless of whether any error
occurred; the row also carries the record count. -/
theorem c10_url_report_status (url : String) (data : List PyRec) :
    ((make_url_report url data).status = "success" ↔ data ≠ []) ∧
    ((make_url_report url data).status = "failed" ↔ data = []) ∧
    (make_url_report url data).records_extracted = data.length := by
  cases data <;> simp [make_url_report]

/-- Claim C3, counterexample: a single scanned paragraph element, whose
cleaned text has length at least 20 and matches version patterns, emits
four version_reference records — three from the ISO-date pattern and one
from the month-year pattern — exceeding the claimed per-element total of
three. -/
theorem c3_counterexample :
    (extract_version_information "u" "d" c3Doc).length = 4 ∧
    is_valid_content 20 (clean_text c3Paragraph) = true ∧
    ¬ (extract_version_information "u" "d" c3Doc).length ≤ 3 := by
  decide

/-- Claim C3, amended: for every scanned element whose cleaned text passes
the stricter validity threshold and matches patterns, extraction emits at
most 3 version_reference records per matching pattern (hence at most 3
times the number of patterns in total, not 3 in total), each carrying a
matched token, the derived context label, and the truncated snippet. -/
theorem c3_per_pattern_cap (url domain elemType : String) (elemIdx : Nat) (raw : String) :
    (∀ p : VersionPattern,
        (versionRecordsForPattern url domain elemType elemIdx (clean_text raw) p).length ≤ 3) ∧
    (version_records_for_element url domain elemType elemIdx raw).length ≤
      3 * version_patterns.length ∧
    ∀ r ∈ version_records_for_element url domain elemType elemIdx raw,
      ∃ p v, v ∈ re_findall p (clean_text raw) ∧
        dictGet? r "version_number" = some (FieldVal.str v) ∧
        dictGet? r "context" =
          some (FieldVal.str (context_label elemType elemIdx (clean_text raw))) ∧
        dictGet? r "element_type" = some (FieldVal.str elemType) ∧
        dictGet? r "full_text" =
          some (FieldVal.str (truncate_full_text (clean_text raw))) := by
  have cap : ∀ p : VersionPattern,
      (versionRecordsForPattern url domain elemType elemIdx (clean_text raw) p).length ≤ 3 := by
    intro p
    by_cases hv : re_findall p (clean_text raw) = []
    · simp [versionRecordsForPattern, hv]
    · simp [versionRecordsForPattern, hv, List.length_take]
  refine ⟨cap, ?_, ?_⟩
  · by_cases hval : is_valid_content 20 (clean_text raw) = true
    · have h1 := cap .semver3
      have h2 := cap .dotted2
      have h3 := cap .prefixedSemver
      have h4 := cap .isoDate
      have h5 := cap .monthYear
      simp only [version_records_for_element, version_patterns, hval, Bool.not_true,
        Bool.false_eq_true, if_false, List.map_cons, List.map_nil] at *
      simp only [List.flatten_cons, List.flatten_nil, List.length_append,
        List.length_nil, List.length_cons]
      omega
    · rw [Bool.not_eq_true] at hval
      simp [version_records_for_element, hval]
  · intro r hr
    by_cases hval : is_valid_content 20 (clean_text raw) = true
    · simp only [version_records_for_element, hval, Bool.not_true, Bool.false_eq_true,
        if_false] at hr
      rw [List.mem_flatten] at hr
      obtain ⟨l, hl, hrl⟩ := hr
      rw [List.mem_map] at hl
      obtain ⟨p, hp, rfl⟩ := hl
      by_cases hv : re_findall p (clean_text raw) = []
      · simp [versionRecordsForPattern, hv] at hrl
      · simp only [versionRecordsForPattern, hv, if_neg, if_false] at hrl
        rw [List.mem_map] at hrl
        obtain ⟨v, hvmem, rfl⟩ := hrl
        refine ⟨p, v, List.take_subset 3 _ hvmem, rfl, rfl, rfl, rfl⟩
    · rw [Bool.not_eq_true] at hval
      simp [version_records_for_element, hval] at hr

/-- Claim C3 witness: the amended statement applied at the concrete
paragraph, giving the total bound and the fields of the first emitted
record. -/
theorem c3_per_pattern_cap_witness :
    (version_records_for_element "u" "d" "paragraph" 0 c3Paragraph).length ≤
      3 * version_patterns.length ∧
    ∃ p v, v ∈ re_findall p (clean_text c3Paragraph) ∧
      dictGet? ((version_records_for_element "u" "d" "paragraph" 0 c3Paragraph).getD 0 [])
        "version_number" = some (FieldVal.str v) := by
  have h := c3_per_pattern_cap "u" "d" "paragraph" 0 c3Paragraph
  refine ⟨h.2.1, ?_⟩
  obtain ⟨p, v, hv, hvn, hc, he, hf⟩ :=
    h.2.2 ((version_records_for_element "u" "d" "paragraph" 0 c3Paragraph).getD 0 [])
      (by decide)
  exact ⟨p, v, hv, hvn⟩

/-- Claim C4: for every table_row record with more than four cell fields,
the additional_data column of its unified row holds the sub-dict of every
binding outside the standardized keys, so every cell binding — captured by
a positional column or not — is recoverable from additional_data. -/
theorem c4_wide_table_recoverable (r : PyRec)
    (hdt : dictGetD r "data_type" (FieldVal.str "") = FieldVal.str "table_data")
    (hwide : 4 < (table_additional r).length) :
    dictGet? (organize_record r) "additional_data" =
      some (UVal.blob (table_additional r)) ∧
    ∀ kv ∈ r,
      (!base_keys.contains kv.1 && !(kv.1 = "table_context") && !(kv.1 = "row_index")) = true →
      kv ∈ table_additional r := by
  constructor
  · simp [organize_record, hdt, dictGet?]
  · intro kv hkv hcond
    exact List.mem_filter.mpr ⟨hkv, hcond⟩

/-- Claim C4 witness: the statement applied to a concrete table_row record
with five cell fields, recovering the fifth cell from additional_data. -/
theorem c4_wide_table_recoverable_witness :
    dictGet? (organize_record c4Rec) "additional_data" =
      some (UVal.blob (table_additional c4Rec)) ∧
    ("Echo", FieldVal.str "fifth") ∈ table_additional c4Rec := by
  have h := c4_wide_table_recoverable c4Rec (by decide) (by decide)
  exact ⟨h.1, h.2 ("Echo", FieldVal.str "fifth") (by decide) (by decide)⟩

/-- Claim C6: for any two non-empty record sequences, the export writes
the identical fixed header — the sorted (strictly increasing, hence
duplicate-free) union of the base columns and every per-type projection
column — and every exported row has one entry per column, each entry being
the record's field or the explicit empty string. -/
theorem c6_stable_schema (d1 d2 : List PyRec) (h1 : d1 ≠ []) (h2 : d2 ≠ []) :
    (export_run d1).file = some (all_columns,
      d1.map fun r => all_columns.map fun c => dictGetD (organize_record r) c (UVal.str "")) ∧
    (export_run d2).file = some (all_columns,
      d2.map fun r => all_columns.map fun c => dictGetD (organize_record r) c (UVal.str "")) ∧
    List.Pairwise (fun a b => strLt a b = true) all_columns ∧
    (∀ c ∈ base_keys, c ∈ all_columns) ∧
    (∀ tc ∈ type_specific_columns, ∀ c ∈ tc.2, c ∈ all_columns) ∧
    (∀ c ∈ all_columns, c ∈ base_keys ∨ ∃ tc ∈ type_specific_columns, c ∈ tc.2) ∧
    (∀ r ∈ d1,
      (all_columns.map fun c => dictGetD (organize_record r) c (UVal.str "")).length =
        all_columns.length) := by
  have hfile : ∀ d : List PyRec, d ≠ [] → (export_run d).file = some (all_columns,
      d.map fun r => all_columns.map fun c => dictGetD (organize_record r) c (UVal.str "")) := by
    intro d hd
    have hmap : d.map organize_record ≠ [] := fun hc => hd (List.map_eq_nil_iff.mp hc)
    simp only [export_run, export_formatted_csv, if_neg hmap, List.map_map]
    rfl
  refine ⟨hfile d1 h1, hfile d2 h2, by decide, by decide, by decide, by decide, ?_⟩
  intro r hr
  simp

/-- Claim C6 witness: the schema statement applied to two concrete
non-empty record sequences with different record types present. -/
theorem c6_stable_schema_witness :
    (export_run c6d1).file = some (all_columns,
      c6d1.map fun r => all_columns.map fun c => dictGetD (organize_record r) c (UVal.str "")) ∧
    (export_run c6d2).file = some (all_columns,
      c6d2.map fun r => all_columns.map fun c => dictGetD (organize_record r) c (UVal.str "")) ∧
    List.Pairwise (fun a b => strLt a b = true) all_columns := by
  have h := c6_stable_schema c6d1 c6d2 (by decide) (by decide)
  exact ⟨h.1, h.2.1, h.2.2.1⟩

/-- Claim C7: parser construction succeeds exactly on present, non-empty
content (it raises only for empty or absent input), and the table loop
contains per-container failures: a container whose processing raises
contributes no records and exactly one warning while extraction continues
with the remaining containers, and a container whose processing succeeds
contributes its records — so no exception escapes the loop. -/
theorem c7_error_containment :
    (∀ html, structured_data_parser_check html = Except.ok () ↔
        (html ≠ none ∧ html ≠ some "")) ∧
    (∀ url domain fr idx t ts, process_table url domain fr idx t = Except.error () →
        extract_tables_go url domain fr idx (t :: ts) =
          ((extract_tables_go url domain fr (idx + 1) ts).1,
            table_warning idx :: (extract_tables_go url domain fr (idx + 1) ts).2)) ∧
    (∀ url domain fr idx t ts fr2 recs,
        process_table url domain fr idx t = Except.ok (fr2, recs) →
        extract_tables_go url domain fr idx (t :: ts) =
          (recs ++ (extract_tables_go url domain fr2 (idx + 1) ts).1,
            (extract_tables_go url domain fr2 (idx + 1) ts).2)) := by
  refine ⟨?_, ?_, ?_⟩
  · intro html
    cases html with
    | none => simp [structured_data_parser_check]
    | some s =>
      by_cases hs : s = ""
      · simp [structured_data_parser_check, hs]
      · simp [structured_data_parser_check, hs]
  · intro url domain fr idx t ts hp
    simp [extract_tables_go, hp]
  · intro url domain fr idx t ts fr2 recs hp
    simp [extract_tables_go, hp]

/-- Claim C7 witness: construction succeeds on concrete non-empty content,
and the containment statement applied to the concrete raising container
yields its records-free, one-warning outcome. -/
theorem c7_error_containment_witness :
    structured_data_parser_check (some "<html>") = Except.ok () ∧
    extract_tables_go "u" "d" none 0 [c2TheadTable] = ([], [table_warning 0]) := by
  constructor
  · exact (c7_error_containment.1 (some "<html>")).mpr ⟨by simp, by simp⟩
  · have hstep := c7_error_containment.2.1 "u" "d" none 0 c2TheadTable [] rfl
    simpa [extract_tables_go] using hstep

/-- Claim C9: for a table_row record none of whose keys is a positional
column name, the four positional columns of its unified row are all the
explicit empty string — the double lookup finds no positional key and then
looks the positional name itself up as a key — and every cell binding
resides in the additional_data sub-dict. -/
theorem c9_positional_columns_empty (r : PyRec)
    (hdt : dictGetD r "data_type" (FieldVal.str "") = FieldVal.str "table_data")
    (h1 : dictGet? r "column_1" = none) (h2 : dictGet? r "column_2" = none)
    (h3 : dictGet? r "column_3" = none) (h4 : dictGet? r "column_4" = none) :
    dictGet? (organize_record r) "column_1" = some (UVal.str "") ∧
    dictGet? (organize_record r) "column_2" = some (UVal.str "") ∧
    dictGet? (organize_record r) "column_3" = some (UVal.str "") ∧
    dictGet? (organize_record r) "column_4" = some (UVal.str "") ∧
    dictGet? (organize_record r) "additional_data" =
      some (UVal.blob (table_additional r)) ∧
    ∀ kv ∈ r,
      (!base_keys.contains kv.1 && !(kv.1 = "table_context") && !(kv.1 = "row_index")) = true →
      kv ∈ table_additional r := by
  have hc : ∀ nm, dictGet? r nm = none → column_slot r nm = UVal.str "" := by
    intro nm hn
    simp [column_slot, dictGetD, hn, uOf]
  refine ⟨?_, ?_, ?_, ?_, ?_, ?_⟩
  · simp [organize_record, hdt, dictGet?, hc _ h1]
  · simp [organize_record, hdt, dictGet?, hc _ h2]
  · simp [organize_record, hdt, dictGet?, hc _ h3]
  · simp [organize_record, hdt, dictGet?, hc _ h4]
  · simp [organize_record, hdt, dictGet?]
  · intro kv hkv hcond
    exact List.mem_filter.mpr ⟨hkv, hcond⟩

/-- Claim C9 witness: the statement applied to a concrete table_row record
with header-derived keys only. -/
theorem c9_positional_columns_empty_witness :
    dictGet? (organize_record c9Rec) "column_1" = some (UVal.str "") ∧
    dictGet? (organize_record c9Rec) "additional_data" =
      some (UVal.blob (table_additional c9Rec)) ∧
    ("Name", FieldVal.str "Widget") ∈ table_additional c9Rec := by
  have h := c9_positional_columns_empty c9Rec (by decide) (by decide) (by decide)
    (by decide) (by decide)
  exact ⟨h.1, h.2.2.2.2.1, h.2.2.2.2.2 ("Name", FieldVal.str "Widget") (by decide) (by decide)⟩
